import Mathlib

/-!
Shallow embedding of src/src/Forecast.js: the data-preparation and
per-product forecasting workflow of the sales-forecast UI component.

Conventions of the embedding:
- JavaScript numbers that may be NaN are modelled as Option values with
  none standing for NaN; where JS distinguishes null from NaN, null is an
  additional outer Option layer.
- Missing object fields (undefined) on raw CSV rows are Option String none.
- The TensorFlow network (training and prediction) is abstracted as a
  function parameter from the training rows and the inference features to
  the predicted quantity: the properties studied here concern counts,
  months and feature construction, never the learned weights.
-/

namespace Forecast

/-- Truthiness of a possibly missing JS string field: undefined and the
empty string are falsy, every other string is truthy. -/
def truthy : Option String → Bool
  | none => false
  | some s => !(s == "")

/-- Whitespace characters skipped by the JS string-to-number conversions. -/
def isWsChar (c : Char) : Bool :=
  c == ' ' || c == '\t' || c == '\n' || c == '\r'

/-- Decimal digit characters read as a natural number. -/
def digitsToNat (l : List Char) : Nat :=
  l.foldl (fun acc c => acc * 10 + (c.toNat - 48)) 0

/-- Model of the JS Number(string) conversion, restricted to the decimal
literals relevant to this repository: after trimming whitespace on both
sides, the empty string converts to 0 and otherwise the whole remainder
must be an optionally signed decimal numeral with an optional fractional
part; any other string converts to NaN (none). -/
def jsToNumber (s : String) : Option ℚ :=
  let cs := ((s.toList.dropWhile isWsChar).reverse.dropWhile isWsChar).reverse
  if cs.isEmpty then some 0
  else
    let sgn : ℚ := match cs with
      | '-' :: _ => -1
      | _ => 1
    let cs1 := match cs with
      | '-' :: rest => rest
      | '+' :: rest => rest
      | _ => cs
    let intDigits := cs1.takeWhile Char.isDigit
    let rest1 := cs1.drop intDigits.length
    let fracDigits := match rest1 with
      | '.' :: r => r.takeWhile Char.isDigit
      | _ => []
    let rest2 := match rest1 with
      | '.' :: r => r.drop fracDigits.length
      | _ => rest1
    if intDigits.isEmpty && fracDigits.isEmpty then none
    else if !rest2.isEmpty then none
    else some (sgn * ((digitsToNat intDigits : ℚ) +
      (digitsToNat fracDigits : ℚ) / ((10 : ℚ) ^ fracDigits.length)))

/-- Model of the global JS isNaN applied to a possibly missing string field:
isNaN(undefined) is true, and a string is NaN exactly when Number(string)
fails to produce a number. -/
def fieldIsNaN : Option String → Bool
  | none => true
  | some s => (jsToNumber s).isNone

/-- Model of the JS parseInt(s, 10) builtin: skip leading whitespace, read
an optional sign and then the longest prefix of decimal digits, ignoring
any trailing characters; the result is NaN (none) when no digit is found. -/
def parseIntJS (s : String) : Option Int :=
  let cs := s.toList.dropWhile isWsChar
  let sgn : Int := match cs with
    | '-' :: _ => -1
    | _ => 1
  let cs1 := match cs with
    | '-' :: rest => rest
    | '+' :: rest => rest
    | _ => cs
  let ds := cs1.takeWhile Char.isDigit
  if ds.isEmpty then none
  else some (sgn * (digitsToNat ds : Int))

/-- Model of the JS parseFloat builtin restricted to plain decimal
literals: skip leading whitespace, read an optional sign, integer digits
and an optional fractional part, ignoring any trailing characters; the
result is NaN (none) when no digit is found. -/
def parseFloatJS (s : String) : Option ℚ :=
  let cs := s.toList.dropWhile isWsChar
  let sgn : ℚ := match cs with
    | '-' :: _ => -1
    | _ => 1
  let cs1 := match cs with
    | '-' :: rest => rest
    | '+' :: rest => rest
    | _ => cs
  let intDigits := cs1.takeWhile Char.isDigit
  let rest1 := cs1.drop intDigits.length
  let fracDigits := match rest1 with
    | '.' :: r => r.takeWhile Char.isDigit
    | _ => []
  if intDigits.isEmpty && fracDigits.isEmpty then none
  else some (sgn * ((digitsToNat intDigits : ℚ) +
    (digitsToNat fracDigits : ℚ) / ((10 : ℚ) ^ fracDigits.length)))

/-- Splitting a character list on a separator, with the semantics of the JS
String.prototype.split: the empty list splits into one empty piece, and
every separator occurrence starts a new piece. -/
def splitListChar (sep : Char) : List Char → List (List Char)
  | [] => [[]]
  | c :: rest =>
    let r := splitListChar sep rest
    if c == sep then [] :: r
    else match r with
      | [] => [[c]]
      | h :: t => (c :: h) :: t

/-- Model of the JS String.prototype.split with a single-character
separator, as used on the created date field. -/
def splitOnChar (s : String) (sep : Char) : List String :=
  (splitListChar sep s.toList).map (fun l => String.mk l)

/-- Raw CSV row as delivered by the CSV parser with header mapping: each
recognised column is a string when present and undefined (none) when the
row lacks it. -/
structure RawRecord where
  created : Option String
  short_desc : Option String
  total_sold : Option String
deriving DecidableEq, Repr

/-- Normalized sales observation. The month is the raw integer parse of
the second date segment (NaN possible, modelled as none) and the quantity
is the raw float parse of the quantity field (NaN possible as well). -/
structure SalesPoint where
  month : Option Int
  product : String
  quantity : Option ℚ
deriving DecidableEq, Repr

/-- Row filter of preprocessData: the three fields are truthy and the
description is not itself a pure number (isNaN of the description holds). -/
def keepRow (row : RawRecord) : Bool :=
  truthy row.created && truthy row.short_desc && truthy row.total_sold &&
    fieldIsNaN row.short_desc

/-- Body of the map inside preprocessData: re-check field presence, split
the date on the dash, require at least two parts, and build the
SalesPoint from the parsed month and quantity; null (none) marks a
dropped row. -/
def rowToSalesPoint (entry : RawRecord) : Option SalesPoint :=
  if !truthy entry.created || !truthy entry.short_desc || !truthy entry.total_sold then
    none
  else
    let dateParts := splitOnChar (entry.created.getD "") '-'
    if dateParts.length < 2 then none
    else some { month := parseIntJS (dateParts[1]!)
              , product := entry.short_desc.getD ""
              , quantity := parseFloatJS (entry.total_sold.getD "") }

/-- The preprocessData function of the source: truncate the raw rows to the
first 100, keep rows passing the presence and non-numeric-description
filter, map each survivor to a SalesPoint or null, and drop the nulls. -/
def preprocessData (rawData : List RawRecord) : List SalesPoint :=
  let limitData := rawData.take 100
  let filteredData := limitData.filter keepRow
  let result := (filteredData.map rowToSalesPoint).filterMap id
  result

/-- One forecast point produced by the model for one future month. The
month carries the JS NaN possibility (none); the predicted quantity comes
from the abstracted network. -/
structure PredictionPoint where
  month : Option Int
  predicted : ℚ
deriving DecidableEq, Repr

/-- NaN-propagating addition of a JS number and an integer constant, as in
the expression lastMonth + i. -/
def jsAdd (a : Option Int) (i : Int) : Option Int :=
  a.map (fun x => x + i)

/-- Month of the last element of the product data, the lastMonth of the
source. On an empty list the source would throw; every caller guards with
nonemptiness, and the embedding returns NaN there. -/
def lastMonthOf (productData : List SalesPoint) : Option Int :=
  match productData.getLast? with
  | some p => p.month
  | none => none

/-- Inference feature pair handed to the trained model for future step i:
the future month lastMonth + i and, as second component, the length of the
training data (the source passes productData.length here, not an
incremented index). -/
def inferenceInput (productData : List SalesPoint) (i : Int) : Option Int × Nat :=
  (jsAdd (lastMonthOf productData) i, productData.length)

/-- Sequence of inference feature pairs for the steps i = 1 .. horizon of
the prediction loop; an empty sequence when the horizon is not positive. -/
def inferenceInputs (productData : List SalesPoint) (horizon : Int) :
    List (Option Int × Nat) :=
  (List.range horizon.toNat).map (fun (k : Nat) => inferenceInput productData ((k : Int) + 1))

/-- Abstraction of the trained TensorFlow network: from the training rows
and one inference feature pair to the predicted quantity. -/
def Net : Type :=
  List SalesPoint → Option Int × Nat → ℚ

/-- The predictSalesForProduct function of the source, with the network
abstracted: train on the product data, then emit one PredictionPoint per
future step i = 1 .. horizon, at month lastMonth + i, with the quantity
predicted from the inference features of that step. -/
def predictSalesForProduct (net : Net) (horizon : Int)
    (productData : List SalesPoint) : List PredictionPoint :=
  (inferenceInputs productData horizon).map (fun inp =>
    { month := inp.1, predicted := net productData inp })

/-- Component state of the Forecast UI relevant to the predict action. -/
structure ForecastState where
  data : List SalesPoint
  months : Int
  predictions : List (String × List PredictionPoint)
  selectedProduct : String
  loading : Bool
  monthsError : String
deriving Repr

/-- Lookup of a product key in a prediction map, with the semantics of a
JS object property access: the first binding wins, absence is undefined. -/
def jsGet (preds : List (String × List PredictionPoint)) (product : String) :
    Option (List PredictionPoint) :=
  match preds with
  | [] => none
  | (k, v) :: rest => if k == product then some v else jsGet rest product

/-- Worker of jsSetDedup, carrying the elements already seen. -/
def jsSetDedupAux (seen : List String) : List String → List String
  | [] => []
  | a :: l =>
    if a ∈ seen then jsSetDedupAux seen l
    else a :: jsSetDedupAux (a :: seen) l

/-- Deduplication with the semantics of the JS Set constructor on an
array: keep the first occurrence of each element, in encounter order. -/
def jsSetDedup (l : List String) : List String :=
  jsSetDedupAux [] l

/-- Accumulated outcome of the per-product loop inside predictSales:
the prediction map built so far, the alert messages raised, and the
products for which a model was actually trained. -/
structure LoopResult where
  predictions : List (String × List PredictionPoint)
  alerts : List String
  trained : List String
deriving Repr

/-- Per-product loop of predictSales: for each product in order, filter
the dataset to that product; when the filtered data is empty raise the
alert and skip the product, otherwise train a model and record its
predictions under the product key. -/
def predictLoop (net : Net) (data : List SalesPoint) (horizon : Int) :
    List String → LoopResult
  | [] => { predictions := [], alerts := [], trained := [] }
  | product :: rest =>
    let filteredData := data.filter (fun e => e.product == product)
    let r := predictLoop net data horizon rest
    if filteredData.isEmpty then
      { predictions := r.predictions
      , alerts := ("No data found for the product: " ++ product) :: r.alerts
      , trained := r.trained }
    else
      { predictions := (product, predictSalesForProduct net horizon filteredData) :: r.predictions
      , alerts := r.alerts
      , trained := product :: r.trained }

/-- The predictSales action of the source: reject a non-positive horizon
with an inline error message before anything else happens; otherwise clear
the error, run the per-product loop over the distinct products of the
dataset, and replace the prediction map wholesale. The returned LoopResult
carries the alerts raised and the products trained (empty on rejection). -/
def predictSales (net : Net) (st : ForecastState) : ForecastState × LoopResult :=
  if st.months ≤ 0 then
    ({ st with monthsError := "Please enter a positive number for months." },
     { predictions := st.predictions, alerts := [], trained := [] })
  else
    let uniqueProducts := jsSetDedup (st.data.map (fun e => e.product))
    let r := predictLoop net st.data st.months uniqueProducts
    ({ st with monthsError := "", predictions := r.predictions, loading := false }, r)

/-- One row of the chart-ready series: the outer Option on actual and
predicted is the JS null of the merge (inner none on actual is a NaN
quantity carried over from normalization). -/
structure ChartEntry where
  month : Option Int
  actual : Option (Option ℚ)
  predicted : Option ℚ
deriving DecidableEq, Repr

/-- Strict JS equality on possibly-NaN months: NaN compares unequal to
everything, including itself. -/
def jsEq (a b : Option Int) : Bool :=
  match a, b with
  | some x, some y => x == y
  | _, _ => false

/-- The renderChartData function of the source: push one entry per actual
SalesPoint of the product, looking the predicted value up by strict month
equality, then push one entry per PredictionPoint of the product with a
null actual. -/
def renderChartData (data : List SalesPoint)
    (predictions : List (String × List PredictionPoint)) (product : String) :
    List ChartEntry :=
  let chartData : List ChartEntry := []
  let filteredData := data.filter (fun e => e.product == product)
  let chartData := filteredData.foldl (fun cd entry =>
    let predictedEntry := ((jsGet predictions product).getD []).find?
      (fun pred => jsEq pred.month entry.month)
    cd ++ [{ month := entry.month
           , actual := some entry.quantity
           , predicted := predictedEntry.map (fun p => p.predicted) }]) chartData
  let chartData := ((jsGet predictions product).getD []).foldl (fun cd pred =>
    cd ++ [{ month := pred.month
           , actual := none
           , predicted := some pred.predicted }]) chartData
  chartData

/-- Follows the wording of the spec for the chart merge, for comparison
with renderChartData: actual-backed entries first, then prediction-only
entries, but only for those PredictionPoints whose month has no
corresponding actual entry already emitted. -/
def renderChartDataSpec (data : List SalesPoint)
    (predictions : List (String × List PredictionPoint)) (product : String) :
    List ChartEntry :=
  let filteredData := data.filter (fun e => e.product == product)
  let preds := (jsGet predictions product).getD []
  let actualEntries := filteredData.map (fun entry =>
    { month := entry.month
    , actual := some entry.quantity
    , predicted := (preds.find? (fun pred => jsEq pred.month entry.month)).map
        (fun p => p.predicted) : ChartEntry })
  let predEntries := (preds.filter (fun pred =>
      !(filteredData.any (fun entry => jsEq pred.month entry.month)))).map
    (fun pred =>
      { month := pred.month
      , actual := none
      , predicted := some pred.predicted : ChartEntry })
  actualEntries ++ predEntries

/-- Constant network used to instantiate the abstracted model in the
concrete examples below. -/
def net0 : Net := fun _ _ => 0

/-- Raw row whose date carries month segment 13 and whose quantity field
is a negative numeral. -/
def rowMonth13 : RawRecord :=
  { created := some "2023-13-05", short_desc := some "Widget", total_sold := some "-4" }

/-- Raw row whose month segment and quantity field both fail numeric
parsing. -/
def rowNaN : RawRecord :=
  { created := some "2023-xx-05", short_desc := some "Widget", total_sold := some "abc" }

/-- Dataset with a single observation of product A at month 3. -/
def dataMonth3 : List SalesPoint :=
  [{ month := some 3, product := "A", quantity := some 7 }]

/-- Prediction map holding a single prediction for product A, at the same
month 3 that the dataset already covers. -/
def predsMonth3 : List (String × List PredictionPoint) :=
  [("A", [{ month := some 3, predicted := 9 }])]

/-- State with one product, a stale prediction map and a non-positive
horizon. -/
def stateReject : ForecastState :=
  { data := dataMonth3, months := 0, predictions := [("B", [])]
  , selectedProduct := "", loading := false, monthsError := "" }

/-- State with a one-observation dataset for product A and horizon 1. -/
def stateOne : ForecastState :=
  { data := [{ month := some 1, product := "A", quantity := some 2 }]
  , months := 1, predictions := [], selectedProduct := "", loading := false
  , monthsError := "" }

/-- Product data with two observations ending at month 2, as in the
end-to-end example of the spec. -/
def pdTwo : List SalesPoint :=
  [{ month := some 1, product := "W", quantity := some 10 },
   { month := some 2, product := "W", quantity := some 15 }]

/-- Product data whose single observation carries a NaN month and a NaN
quantity — exactly what Normalization stores for the rowNaN input. -/
def pdNaN : List SalesPoint :=
  [{ month := none, product := "Widget", quantity := none }]

/-! Helper lemmas shared by the claim theorems. -/

theorem foldl_push_map {α β : Type} (f : α → β) :
    ∀ (l : List α) (init : List β),
      l.foldl (fun cd x => cd ++ [f x]) init = init ++ l.map f
  | [], init => by simp
  | a :: l, init => by
    simp [List.foldl_cons, foldl_push_map f l]

theorem mem_preprocessData (raw : List RawRecord) (sp : SalesPoint) :
    sp ∈ preprocessData raw ↔
      ∃ row, row ∈ (raw.take 100).filter keepRow ∧ rowToSalesPoint row = some sp := by
  simp [preprocessData, List.filterMap_map, List.mem_filterMap]

theorem keepRow_iff (row : RawRecord) :
    keepRow row = true ↔
      truthy row.created = true ∧ truthy row.short_desc = true ∧
      truthy row.total_sold = true ∧ fieldIsNaN row.short_desc = true := by
  simp [keepRow, Bool.and_eq_true, and_assoc]

theorem rowToSalesPoint_eq_some (entry : RawRecord) (sp : SalesPoint) :
    rowToSalesPoint entry = some sp ↔
      truthy entry.created = true ∧ truthy entry.short_desc = true ∧
      truthy entry.total_sold = true ∧
      2 ≤ (splitOnChar (entry.created.getD "") '-').length ∧
      sp = { month := parseIntJS ((splitOnChar (entry.created.getD "") '-')[1]!)
           , product := entry.short_desc.getD ""
           , quantity := parseFloatJS (entry.total_sold.getD "") } := by
  by_cases h1 : truthy entry.created <;>
    by_cases h2 : truthy entry.short_desc <;>
      by_cases h3 : truthy entry.total_sold <;>
        simp [rowToSalesPoint, h1, h2, h3]
  rcases Nat.lt_or_ge (splitOnChar (entry.created.getD "") '-').length 2 with h4 | h4
  · simp [h4, Nat.not_le.mpr h4]
  · simp [Nat.not_lt.mpr h4, h4, eq_comm]

theorem mem_jsSetDedupAux :
    ∀ (l seen : List String) (p : String), p ∈ jsSetDedupAux seen l → p ∈ l := by
  intro l
  induction l with
  | nil => intro seen p h; simp [jsSetDedupAux] at h
  | cons a rest ih =>
    intro seen p h
    simp only [jsSetDedupAux] at h
    by_cases hc : a ∈ seen
    · rw [if_pos hc] at h
      exact List.mem_cons_of_mem _ (ih seen p h)
    · rw [if_neg hc] at h
      rcases List.mem_cons.mp h with h | h
      · simp [h]
      · exact List.mem_cons_of_mem _ (ih (a :: seen) p h)

theorem mem_jsSetDedup (l : List String) (p : String) (h : p ∈ jsSetDedup l) :
    p ∈ l :=
  mem_jsSetDedupAux l [] p h

theorem mem_jsSetDedupAux_of_mem :
    ∀ (l seen : List String) (p : String), p ∈ l → p ∉ seen →
      p ∈ jsSetDedupAux seen l := by
  intro l
  induction l with
  | nil => intro seen p h _; simp at h
  | cons a rest ih =>
    intro seen p h hns
    simp only [jsSetDedupAux]
    by_cases hc : a ∈ seen
    · rw [if_pos hc]
      rcases List.mem_cons.mp h with h | h
      · subst h; exact absurd hc hns
      · exact ih seen p h hns
    · rw [if_neg hc]
      rcases List.mem_cons.mp h with h | h
      · subst h; exact List.mem_cons_self _ _
      · by_cases hpa : p = a
        · subst hpa; exact List.mem_cons_self _ _
        · refine List.mem_cons_of_mem _ (ih (a :: seen) p h ?_)
          simp [List.mem_cons, hpa, hns]

theorem mem_jsSetDedup_of_mem (l : List String) (p : String) (h : p ∈ l) :
    p ∈ jsSetDedup l :=
  mem_jsSetDedupAux_of_mem l [] p h (by simp)

theorem predictLoop_trains_all (net : Net) (data : List SalesPoint) (hz : Int) :
    ∀ (l : List String) (q : String), q ∈ l →
      (data.filter (fun e => e.product == q)).isEmpty = false →
      q ∈ (predictLoop net data hz l).trained ∧
      (jsGet (predictLoop net data hz l).predictions q).isSome = true := by
  intro l
  induction l with
  | nil => intro q h _; simp at h
  | cons a rest ih =>
    intro q hq hne
    rcases List.mem_cons.mp hq with hqa | hqr
    · subst hqa
      simp [predictLoop, hne, jsGet]
    · have hrec := ih q hqr hne
      simp only [predictLoop]
      by_cases he : (data.filter (fun e => e.product == a)).isEmpty
      · rw [if_pos he]
        exact hrec
      · rw [if_neg he]
        constructor
        · exact List.mem_cons_of_mem _ hrec.1
        · simp only [jsGet]
          by_cases hb : a == q
          · rw [if_pos hb]
            rfl
          · rw [if_neg hb]
            exact hrec.2

theorem filter_product_ne_empty (data : List SalesPoint) (p : String)
    (h : p ∈ data.map (fun e => e.product)) :
    (data.filter (fun e => e.product == p)).isEmpty = false := by
  rcases List.mem_map.mp h with ⟨e, he, hp⟩
  have hmem : e ∈ data.filter (fun e => e.product == p) := by
    simp [List.mem_filter, he, hp]
  cases hfil : data.filter (fun e => e.product == p) with
  | nil => rw [hfil] at hmem; simp at hmem
  | cons x xs => simp

theorem predictLoop_trained_subset (net : Net) (data : List SalesPoint) (hz : Int) :
    ∀ (l : List String) (p : String),
      p ∈ (predictLoop net data hz l).trained → p ∈ l := by
  intro l
  induction l with
  | nil => intro p h; simp [predictLoop] at h
  | cons q rest ih =>
    intro p h
    simp only [predictLoop] at h
    by_cases he : (data.filter (fun e => e.product == q)).isEmpty
    · simp [he] at h
      exact List.mem_cons_of_mem _ (ih p h)
    · simp [he] at h
      rcases h with h | h
      · simp [h]
      · exact List.mem_cons_of_mem _ (ih p h)

theorem predictLoop_keys_subset (net : Net) (data : List SalesPoint) (hz : Int) :
    ∀ (l : List String) (p : String),
      (jsGet (predictLoop net data hz l).predictions p).isSome = true → p ∈ l := by
  intro l
  induction l with
  | nil => intro p h; simp [predictLoop, jsGet] at h
  | cons q rest ih =>
    intro p h
    by_cases hqp : q = p
    · simp [hqp]
    · have hb : (q == p) = false := beq_eq_false_iff_ne.mpr hqp
      simp only [predictLoop] at h
      by_cases he : (data.filter (fun e => e.product == q)).isEmpty
      · simp [he] at h
        exact List.mem_cons_of_mem _ (ih p h)
      · simp [he, jsGet, hb] at h
        exact List.mem_cons_of_mem _ (ih p h)

theorem predictLoop_alerts_nil (net : Net) (data : List SalesPoint) (hz : Int) :
    ∀ (l : List String),
      (∀ q ∈ l, (data.filter (fun e => e.product == q)).isEmpty = false) →
      (predictLoop net data hz l).alerts = [] := by
  intro l
  induction l with
  | nil => intro _; simp [predictLoop]
  | cons q rest ih =>
    intro hall
    have hq := hall q (by simp)
    simp only [predictLoop, hq]
    simp
    exact ih (fun r hr => hall r (List.mem_cons_of_mem _ hr))

/-! Claim theorems. -/

/-- C4: for every input of any length, Normalization considers only the
first 100 raw rows, truncating before any filtering is applied, so the
resulting Dataset has at most 100 elements. -/
theorem normalization_truncates_to_100 (raw : List RawRecord) :
    preprocessData raw = preprocessData (raw.take 100) ∧
    (preprocessData raw).length ≤ 100 := by
  constructor
  · simp [preprocessData, List.take_take]
  · have h1 : preprocessData raw =
        (((raw.take 100).filter keepRow).map rowToSalesPoint).filterMap id := rfl
    rw [h1]
    calc ((((raw.take 100).filter keepRow).map rowToSalesPoint).filterMap id).length
        ≤ (((raw.take 100).filter keepRow).map rowToSalesPoint).length :=
          List.length_filterMap_le _ _
      _ = ((raw.take 100).filter keepRow).length := List.length_map _ _
      _ ≤ (raw.take 100).length := List.length_filter_le _ _
      _ ≤ 100 := by simp [List.length_take]

/-- C5: for every horizon at most 0, the predict action stores a rejection
message and returns before any Modeling occurs: no product is trained, no
alert fires, and the PredictionSet and Dataset are left unchanged. -/
theorem nonpositive_horizon_rejected (net : Net) (st : ForecastState)
    (h : st.months ≤ 0) :
    (predictSales net st).1.monthsError = "Please enter a positive number for months." ∧
    (predictSales net st).1.predictions = st.predictions ∧
    (predictSales net st).1.data = st.data ∧
    (predictSales net st).2.trained = [] ∧
    (predictSales net st).2.alerts = [] := by
  simp [predictSales, h]

/-- Witness for C5 at a concrete state with horizon 0. -/
theorem nonpositive_horizon_rejected_witness :
    (predictSales net0 stateReject).1.monthsError =
      "Please enter a positive number for months." ∧
    (predictSales net0 stateReject).1.predictions = stateReject.predictions ∧
    (predictSales net0 stateReject).1.data = stateReject.data ∧
    (predictSales net0 stateReject).2.trained = [] ∧
    (predictSales net0 stateReject).2.alerts = [] :=
  nonpositive_horizon_rejected net0 stateReject (by decide)

/-- C9: after a completed predict action, every key of the resulting
PredictionSet is among the product names present in the Dataset at
prediction time. -/
theorem prediction_keys_subset_products (net : Net) (st : ForecastState)
    (p : String) (hm : 0 < st.months)
    (hk : (jsGet (predictSales net st).1.predictions p).isSome = true) :
    p ∈ st.data.map (fun e => e.product) := by
  have hnot : ¬ st.months ≤ 0 := by omega
  simp only [predictSales, if_neg hnot] at hk
  exact mem_jsSetDedup _ _ (predictLoop_keys_subset net st.data st.months _ p hk)

/-- Witness for C9 at a concrete one-product state. -/
theorem prediction_keys_subset_products_witness :
    "A" ∈ stateOne.data.map (fun e => e.product) :=
  prediction_keys_subset_products net0 stateOne "A" (by decide) (by rfl)

/-- C6 counterexample: product B has an empty filtered dataset in this
state, yet running the predict action raises no notification at all, so
the skip is silent rather than surfaced with a blocking alert. -/
theorem empty_product_no_alert_counterexample :
    stateOne.data.filter (fun e => e.product == "B") = [] ∧
    (predictSales net0 stateOne).2.alerts = [] := by
  constructor
  · rfl
  · rfl

/-- C6 amended: a product whose filtered dataset is empty is never
enumerated by the predict loop, because products are drawn from the
dataset itself; so no model is trained for it and it gets no key in the
PredictionSet, but also no notification fires, and the alert branch is
unreachable (the action raises no alert at all) — while processing of the
Dataset's products continues: every product present in the Dataset is
trained and receives a PredictionSet key. -/
theorem empty_product_skipped_silently (net : Net) (st : ForecastState)
    (p : String) (hm : 0 < st.months)
    (he : st.data.filter (fun e => e.product == p) = []) :
    (predictSales net st).2.alerts = [] ∧
    p ∉ (predictSales net st).2.trained ∧
    jsGet (predictSales net st).1.predictions p = none ∧
    ∀ q ∈ st.data.map (fun e => e.product),
      q ∈ (predictSales net st).2.trained ∧
      (jsGet (predictSales net st).1.predictions q).isSome = true := by
  have hnot : ¬ st.months ≤ 0 := by omega
  have hall : ∀ q ∈ jsSetDedup (st.data.map (fun e => e.product)),
      (st.data.filter (fun e => e.product == q)).isEmpty = false := by
    intro q hq
    exact filter_product_ne_empty st.data q (mem_jsSetDedup _ _ hq)
  refine ⟨?_, ?_, ?_, ?_⟩
  · simp only [predictSales, if_neg hnot]
    exact predictLoop_alerts_nil net st.data st.months _ hall
  · simp only [predictSales, if_neg hnot]
    intro hmem
    have hp := mem_jsSetDedup _ _ (predictLoop_trained_subset net st.data st.months _ p hmem)
    have hne := filter_product_ne_empty st.data p hp
    rw [he] at hne
    simp at hne
  · cases hk : jsGet (predictSales net st).1.predictions p with
    | none => rfl
    | some v =>
      have hsome : (jsGet (predictSales net st).1.predictions p).isSome = true := by
        simp [hk]
      simp only [predictSales, if_neg hnot] at hsome
      have hp := mem_jsSetDedup _ _
        (predictLoop_keys_subset net st.data st.months _ p hsome)
      have hne := filter_product_ne_empty st.data p hp
      rw [he] at hne
      simp at hne
  · intro q hqmem
    have hq1 : q ∈ jsSetDedup (st.data.map (fun e => e.product)) :=
      mem_jsSetDedup_of_mem _ _ hqmem
    have hq2 := filter_product_ne_empty st.data q hqmem
    have htr := predictLoop_trains_all net st.data st.months _ q hq1 hq2
    constructor
    · simp only [predictSales, if_neg hnot]
      exact htr.1
    · simp only [predictSales, if_neg hnot]
      exact htr.2

/-- Witness for the amended C6 at a concrete state where product B has no
data while product A does: B is skipped silently, A is still trained and
keyed. -/
theorem empty_product_skipped_silently_witness :
    (predictSales net0 stateOne).2.alerts = [] ∧
    "B" ∉ (predictSales net0 stateOne).2.trained ∧
    jsGet (predictSales net0 stateOne).1.predictions "B" = none ∧
    "A" ∈ (predictSales net0 stateOne).2.trained ∧
    (jsGet (predictSales net0 stateOne).1.predictions "A").isSome = true := by
  have h := empty_product_skipped_silently net0 stateOne "B" (by decide) (by rfl)
  have hA := h.2.2.2 "A" (by simp [stateOne])
  exact ⟨h.1, h.2.1, h.2.2.1, hA.1, hA.2⟩

/-- C3 counterexample: a product whose single SalesPoint carries a NaN
month is reachable from Normalization (the rowNaN input produces exactly
this data), is nonempty, and with the positive horizon 2 the model output
has months NaN and NaN — not strictly increasing consecutive integers. -/
theorem modeling_nan_months_counterexample :
    preprocessData [rowNaN] = pdNaN ∧ pdNaN ≠ [] ∧ (0 : Int) < 2 ∧
    (predictSalesForProduct net0 2 pdNaN).map (fun p => p.month) = [none, none] := by
  refine ⟨?_, by decide, by decide, rfl⟩
  simp +decide [preprocessData, keepRow, rowToSalesPoint, rowNaN, truthy,
    fieldIsNaN, jsToNumber, splitOnChar, splitListChar, parseIntJS, parseFloatJS,
    digitsToNat, isWsChar, List.dropWhile, List.takeWhile]

/-- C3 amended: for every product with at least one SalesPoint and every
positive horizon, Per-Product Modeling returns exactly horizon many
PredictionPoints, with months lastMonth + 1 .. lastMonth + horizon under
NaN-propagating addition: when the last month is the integer m the months
are the strictly increasing consecutive integers m + 1 .. m + horizon,
and when the last month is NaN every prediction month is NaN. -/
theorem modeling_months_consecutive_or_nan (net : Net) (horizon : Int)
    (productData : List SalesPoint) (hne : productData ≠ [])
    (hpos : 0 < horizon) :
    ((predictSalesForProduct net horizon productData).length : Int) = horizon ∧
    (∀ m, lastMonthOf productData = some m →
      ∀ i (hi : i < (predictSalesForProduct net horizon productData).length),
        ((predictSalesForProduct net horizon productData).get ⟨i, hi⟩).month =
          some (m + 1 + i)) ∧
    (lastMonthOf productData = none →
      ∀ i (hi : i < (predictSalesForProduct net horizon productData).length),
        ((predictSalesForProduct net horizon productData).get ⟨i, hi⟩).month =
          none) := by
  refine ⟨?_, ?_, ?_⟩
  · have h : (predictSalesForProduct net horizon productData).length = horizon.toNat := by
      simp only [predictSalesForProduct, inferenceInputs, List.length_map, List.length_range]
    rw [h]
    omega
  · intro m hlast i hi
    simp only [predictSalesForProduct, inferenceInputs, List.get_eq_getElem,
      List.getElem_map, List.getElem_range, inferenceInput, jsAdd, hlast,
      Option.map_some']
    congr 1
    omega
  · intro hlast i hi
    simp only [predictSalesForProduct, inferenceInputs, List.get_eq_getElem,
      List.getElem_map, List.getElem_range, inferenceInput, jsAdd, hlast,
      Option.map_none']

/-- Witness for the amended C3 on a two-observation product ending at
month 2, with horizon 2: the forecast has the two consecutive months 3
and 4. -/
theorem modeling_months_consecutive_or_nan_witness :
    ((predictSalesForProduct net0 2 pdTwo).length : Int) = 2 ∧
    ((predictSalesForProduct net0 2 pdTwo).get ⟨0, by decide⟩).month = some 3 ∧
    ((predictSalesForProduct net0 2 pdTwo).get ⟨1, by decide⟩).month = some 4 := by
  have h := modeling_months_consecutive_or_nan net0 2 pdTwo (by decide) (by decide)
  refine ⟨h.1, ?_, ?_⟩
  · have h0 := h.2.1 2 rfl 0 (by decide)
    simpa using h0
  · have h1 := h.2.1 2 rfl 1 (by decide)
    simpa using h1

/-- C7: every inference feature pair of the prediction loop carries the
future month lastMonth + (i + 1) as first component and the training-set
row count as second component, identical across all future steps. -/
theorem inference_reuses_rowcount (productData : List SalesPoint)
    (horizon : Int) (i : Nat)
    (hi : i < (inferenceInputs productData horizon).length) :
    (inferenceInputs productData horizon).get ⟨i, hi⟩ =
      (jsAdd (lastMonthOf productData) ((i : Int) + 1), productData.length) := by
  simp [inferenceInputs, inferenceInput, List.get_eq_getElem,
    List.getElem_map, List.getElem_range]

/-- Witness for C7 on the two-observation product with horizon 2: both
steps use row count 2 as second feature component. -/
theorem inference_reuses_rowcount_witness :
    (inferenceInputs pdTwo 2).get ⟨0, by decide⟩ = (some 3, 2) ∧
    (inferenceInputs pdTwo 2).get ⟨1, by decide⟩ = (some 4, 2) := by
  have h0 := inference_reuses_rowcount pdTwo 2 0 (by decide)
  have h1 := inference_reuses_rowcount pdTwo 2 1 (by decide)
  constructor
  · rw [h0]
    simp [jsAdd, lastMonthOf, pdTwo]
  · rw [h1]
    simp [jsAdd, lastMonthOf, pdTwo]

/-- C1 counterexample: with an actual observation at month 3 and a
prediction at the same month 3, the merge emits the prediction-only entry
anyway, so the output differs from the spec wording that suppresses
prediction entries for months already covered by an actual entry. -/
theorem chartMerge_spec_counterexample :
    renderChartData dataMonth3 predsMonth3 "A" ≠
      renderChartDataSpec dataMonth3 predsMonth3 "A" ∧
    ({ month := some 3, actual := some (some 7), predicted := some 9 } : ChartEntry) ∈
      renderChartData dataMonth3 predsMonth3 "A" ∧
    ({ month := some 3, actual := none, predicted := some 9 } : ChartEntry) ∈
      renderChartData dataMonth3 predsMonth3 "A" := by
  refine ⟨?_, ?_, ?_⟩ <;>
    simp [renderChartData, renderChartDataSpec, dataMonth3, predsMonth3, jsGet, jsEq]

/-- C1 amended: the chart merge emits one entry per actual SalesPoint of
the product in Dataset order, with the predicted value looked up by strict
month equality or null, followed by one entry per PredictionPoint with a
null actual — for every PredictionPoint, whether or not its month already
has an actual entry. -/
theorem chartMerge_appends_every_prediction (data : List SalesPoint)
    (predictions : List (String × List PredictionPoint)) (product : String) :
    renderChartData data predictions product =
      (data.filter (fun e => e.product == product)).map (fun entry =>
        { month := entry.month
        , actual := some entry.quantity
        , predicted := (((jsGet predictions product).getD []).find?
            (fun pred => jsEq pred.month entry.month)).map (fun p => p.predicted) })
      ++ ((jsGet predictions product).getD []).map (fun pred =>
        { month := pred.month, actual := none, predicted := some pred.predicted }) := by
  simp [renderChartData, foldl_push_map]

/-- C2 counterexample: a raw row whose date carries month segment 13 and
whose quantity is the negative numeral -4 survives normalization
unchanged, so the stored SalesPoint has a month outside the range 1..12
and a non-positive quantity. -/
theorem salesPoint_invariant_counterexample :
    preprocessData [rowMonth13] =
      [{ month := some 13, product := "Widget", quantity := some (-4) }] ∧
    ¬((13 : Int) ≤ 12) ∧ ¬(0 < (-4 : ℚ)) := by
  refine ⟨?_, by omega, by norm_num⟩
  simp +decide [preprocessData, keepRow, rowToSalesPoint, rowMonth13, truthy,
    fieldIsNaN, jsToNumber, splitOnChar, splitListChar, parseIntJS, parseFloatJS,
    digitsToNat, isWsChar, List.dropWhile, List.takeWhile]

/-- C2 amended: every SalesPoint stored in the Dataset carries exactly the
raw integer parse of the second date segment as its month and the raw
float parse of the quantity field as its quantity, with no range or sign
check — so both can be NaN, non-positive, or outside 1..12; rows with a
missing field, a numeric description, or a date splitting into fewer than
two parts are dropped rather than causing an error. -/
theorem salesPoint_fields_raw_parses (raw : List RawRecord) (sp : SalesPoint)
    (h : sp ∈ preprocessData raw) :
    ∃ row, row ∈ raw.take 100 ∧ keepRow row = true ∧
      2 ≤ (splitOnChar (row.created.getD "") '-').length ∧
      sp.month = parseIntJS ((splitOnChar (row.created.getD "") '-')[1]!) ∧
      sp.product = row.short_desc.getD "" ∧
      sp.quantity = parseFloatJS (row.total_sold.getD "") := by
  rcases (mem_preprocessData raw sp).mp h with ⟨row, hrow, hsome⟩
  rcases List.mem_filter.mp hrow with ⟨htake, hkeep⟩
  rcases (rowToSalesPoint_eq_some row sp).mp hsome with ⟨_, _, _, hlen, hsp⟩
  exact ⟨row, htake, hkeep, hlen, by rw [hsp], by rw [hsp], by rw [hsp]⟩

/-- Witness for the amended C2 at the month-13 row. -/
theorem salesPoint_fields_raw_parses_witness :
    ∃ row, row ∈ [rowMonth13].take 100 ∧ keepRow row = true ∧
      2 ≤ (splitOnChar (row.created.getD "") '-').length ∧
      (some 13 : Option Int) = parseIntJS ((splitOnChar (row.created.getD "") '-')[1]!) ∧
      "Widget" = row.short_desc.getD "" ∧
      (some (-4) : Option ℚ) = parseFloatJS (row.total_sold.getD "") := by
  have h := salesPoint_fields_raw_parses [rowMonth13]
    { month := some 13, product := "Widget", quantity := some (-4) }
    (by simp +decide [preprocessData, keepRow, rowToSalesPoint, rowMonth13, truthy,
      fieldIsNaN, jsToNumber, splitOnChar, splitListChar, parseIntJS, parseFloatJS,
      digitsToNat, isWsChar, List.dropWhile, List.takeWhile])
  exact h

/-- C8: normalization keeps a raw row only if its three fields are present
and the description is not a pure number: the Dataset is no longer than
the kept part of the truncated input, and every SalesPoint originates from
a row that passed the presence and non-numeric-description filter. -/
theorem rows_missing_fields_excluded (raw : List RawRecord) :
    (preprocessData raw).length ≤ ((raw.take 100).filter keepRow).length ∧
    ∀ sp ∈ preprocessData raw,
      ∃ row ∈ raw.take 100, keepRow row = true ∧ rowToSalesPoint row = some sp := by
  constructor
  · have h1 : preprocessData raw =
        (((raw.take 100).filter keepRow).map rowToSalesPoint).filterMap id := rfl
    rw [h1]
    calc ((((raw.take 100).filter keepRow).map rowToSalesPoint).filterMap id).length
        ≤ (((raw.take 100).filter keepRow).map rowToSalesPoint).length :=
          List.length_filterMap_le _ _
      _ = ((raw.take 100).filter keepRow).length := List.length_map _ _
  · intro sp h
    rcases (mem_preprocessData raw sp).mp h with ⟨row, hrow, hsome⟩
    rcases List.mem_filter.mp hrow with ⟨htake, hkeep⟩
    exact ⟨row, htake, hkeep, hsome⟩

/-- Witness for C8 at the month-13 row. -/
theorem rows_missing_fields_excluded_witness :
    ∃ row ∈ [rowMonth13].take 100, keepRow row = true ∧
      rowToSalesPoint row =
        some { month := some 13, product := "Widget", quantity := some (-4) } := by
  exact (rows_missing_fields_excluded [rowMonth13]).2
    { month := some 13, product := "Widget", quantity := some (-4) }
    (by simp +decide [preprocessData, keepRow, rowToSalesPoint, rowMonth13, truthy,
      fieldIsNaN, jsToNumber, splitOnChar, splitListChar, parseIntJS, parseFloatJS,
      digitsToNat, isWsChar, List.dropWhile, List.takeWhile])

/-- C10: a raw row that passes the presence and non-numeric-description
filter and whose date splits into at least two parts always yields a
SalesPoint in the Dataset, with exactly the raw parses as month and
quantity — with no requirement that either parse succeeds, so a NaN month
or quantity is stored rather than the row being dropped. -/
theorem nan_rows_still_emitted (raw : List RawRecord) (entry : RawRecord)
    (h1 : entry ∈ raw.take 100) (h2 : keepRow entry = true)
    (h3 : 2 ≤ (splitOnChar (entry.created.getD "") '-').length) :
    ({ month := parseIntJS ((splitOnChar (entry.created.getD "") '-')[1]!)
     , product := entry.short_desc.getD ""
     , quantity := parseFloatJS (entry.total_sold.getD "") } : SalesPoint) ∈
      preprocessData raw := by
  apply (mem_preprocessData raw _).mpr
  refine ⟨entry, List.mem_filter.mpr ⟨h1, h2⟩, ?_⟩
  rcases (keepRow_iff entry).mp h2 with ⟨hc, hd, hq, _⟩
  exact (rowToSalesPoint_eq_some entry _).mpr ⟨hc, hd, hq, h3, rfl⟩

/-- Witness for C10 at a row whose month segment and quantity both parse
to NaN: the NaN SalesPoint is stored in the Dataset. -/
theorem nan_rows_still_emitted_witness :
    ({ month := none, product := "Widget", quantity := none } : SalesPoint) ∈
      preprocessData [rowNaN] := by
  have heq : ({ month := none, product := "Widget", quantity := none } : SalesPoint) =
      { month := parseIntJS ((splitOnChar (rowNaN.created.getD "") '-')[1]!)
      , product := rowNaN.short_desc.getD ""
      , quantity := parseFloatJS (rowNaN.total_sold.getD "") } := by
    simp +decide [rowNaN, splitOnChar, splitListChar, parseIntJS, parseFloatJS,
      digitsToNat, isWsChar, List.dropWhile, List.takeWhile]
  rw [heq]
  exact nan_rows_still_emitted [rowNaN] rowNaN (by decide) (by decide) (by decide)

end Forecast
